import Mathlib

/-!
Formal model of the LoyOpt command-line option parsing library (`LoyOpt.h`).

The embedding is a direct shallow translation of the C++ source:

* `Status`, `Val`, `OptState` model `OptionBase::Status`, the value variant
  `variant<bool, string, int32_t, uint32_t, int64_t, float, double>` and the
  fields of `OptionBase`.  Machine integers are modelled as `Int` and the two
  floating kinds as `Rat`; on the paths reachable through the `Option<T>`
  constructors every C narrowing conversion is either the identity (the
  clamped value already lies in the target range) or unreachable, and is
  modelled exactly.
* `clampPair` is `OptionBase::clamp` (value together with the status it
  assigns), `update_numeric_bool` / `update_numeric_int` /
  `update_numeric_float` are the three template instantiations of
  `OptionBase::update_numeric_value_n_status` that `OptionParser` uses
  (argument types `bool`, `int64_t`, `double`).  Their final match row is the
  C++ switch's `default:` row; it also absorbs descriptor states whose
  `min`/`max` variant kind disagrees with `value` - there the C++ would throw
  `bad_variant_access`, and such states are unreachable through the
  `Option<T>` constructors.
* `strtollM` models the C library function `strtoll` per the C standard and
  glibc (whitespace, sign, optional `0x` prefix for base 16, digit run,
  saturation to the `long long` range; if no digit is converted the end
  pointer equals the start, i.e. zero characters are consumed).  `strtod` is
  external library code as well and is modelled as an uninterpreted
  conversion function `String → FloatConv` passed to `Parse`, giving the
  converted value, a NaN flag, and the number of characters consumed.
* `tokenizeArg` / `mkParserArgs` model the `OptionParser` constructor
  (cluster splitting of `argv`, then marking token 0 consumed),
  `NameMatch` models `OptionBase::NameMatch`, `scanArgs` / `Parse` model
  `OptionParser::Parse`, `deal_integer` / `deal_floating` the two private
  helpers, and `FirstUnparsedArg` / `GetAllUnparsedArgs` the two
  introspection methods (both `const` in the source: the model returns no
  updated token list).
-/

/-- Model of `OptionBase::Status`. -/
inductive Status where
  | NotParsed
  | NotFound
  | ValueInvalid
  | ValueNotFound
  | ClampedMax
  | ClampedMin
  | Parsed
deriving DecidableEq, Repr

/-- Model of `variant<bool, string, int32_t, uint32_t, int64_t, float, double>`.
Integer payloads are `Int`, floating payloads are `Rat`. -/
inductive Val where
  | vBool (b : Bool)
  | vStr (s : String)
  | vI32 (n : Int)
  | vU32 (n : Int)
  | vI64 (n : Int)
  | vF32 (q : Rat)
  | vF64 (q : Rat)
deriving DecidableEq, Repr

/-- Model of `std::variant::index()` for `Val`. -/
def Val.index : Val → Nat
  | .vBool _ => 0
  | .vStr _ => 1
  | .vI32 _ => 2
  | .vU32 _ => 3
  | .vI64 _ => 4
  | .vF32 _ => 5
  | .vF64 _ => 6

/-- Model of the data fields of `OptionBase`.  `matched_name` is a pointer to
`name`, `alt_name` or the empty-string sentinel in the source; it is modelled
by the pointed-to string ("" when unset). -/
structure OptState where
  status : Status
  name : String
  alt_name : String
  matched_name : String
  base : Nat
  default_val : Val
  value : Val
  min : Val
  max : Val
deriving DecidableEq, Repr

/-- Model of `OptionParser::Arg = pair<bool, string>`: consumed flag and text. -/
abbrev Arg := Bool × String

/-- Marks the token at the given index consumed (`args[i].first = true`). -/
def consumeAt : List Arg → Nat → List Arg
  | [], _ => []
  | a :: rest, 0 => (true, a.2) :: rest
  | a :: rest, n + 1 => a :: consumeAt rest n

/-- Text of the token at an index (tokens are never read out of range by the
source loops; the default is irrelevant). -/
def textAt (args : List Arg) (i : Nat) : String :=
  (args.getD i (false, "")).2

/-- Model of one iteration of the `OptionParser` constructor loop: a token of
length at least 3 that starts with a single `-` whose second character is not
`-`, `.` nor a decimal digit is split into one `-`-prefixed one-character
token per character after the leading `-`; every other token is kept
verbatim. -/
def tokenizeArg (tok : String) : List String :=
  match tok.toList with
  | c0 :: c1 :: rest =>
    if c0 = '-' ∧ 3 ≤ tok.length ∧ c1 ≠ '-' ∧ c1 ≠ '.' ∧ ¬('0' ≤ c1 ∧ c1 ≤ '9') then
      (c1 :: rest).map (fun c => String.mk ['-', c])
    else [tok]
  | _ => [tok]

/-- Model of the `OptionParser` constructor: expand every element of `argv`
with `tokenizeArg` (all produced tokens unconsumed), then mark the token at
index 0 consumed (`args[0].first = true`).  The source indexes `args[0]`
unconditionally (undefined behavior for `argc = 0`); the model leaves the
empty list unchanged. -/
def mkParserArgs (argv : List String) : List Arg :=
  consumeAt ((argv.map tokenizeArg).flatten.map (fun s => ((false : Bool), s))) 0

/-- Model of `OptionBase::NameMatch`: returns whether the text equals `name`
or `alt_name`, updating `matched_name` on success only. -/
def NameMatch (opt : OptState) (s : String) : Bool × OptState :=
  if opt.name = s then (true, { opt with matched_name := opt.name })
  else if opt.alt_name = s then (true, { opt with matched_name := opt.alt_name })
  else (false, opt)

/-- Pure text-match predicate: the token text equals `name` or `alt_name`. -/
def nameMatchB (opt : OptState) (s : String) : Bool :=
  opt.name == s || opt.alt_name == s

/-- Model of `OptionBase::clamp`: the clamped value together with the status
the member function assigns. -/
def clampPair {A : Type} [LinearOrder A] (val mn mx : A) : A × Status :=
  (if val < mn then mn else if val > mx then mx else val,
   if val < mn then Status.ClampedMin else if val > mx then Status.ClampedMax else Status.Parsed)

/-- C truncation of a floating value toward zero (used by the dead
integer rows of the `double` instantiation below). -/
def truncRat (q : Rat) : Int :=
  if q < 0 then Int.ceil q else Int.floor q

/-- Instantiation `update_numeric_value_n_status<bool>` (called by `Parse`
with `true` for bool-kind descriptors, which take the switch's default row). -/
def update_numeric_bool (opt : OptState) (b : Bool) : OptState :=
  match opt.value.index, opt.min, opt.max with
  | 2, Val.vI32 mn, Val.vI32 mx =>
      let c := clampPair (if b then (1 : Int) else 0) mn mx
      { opt with value := Val.vI32 c.1, status := c.2 }
  | 3, Val.vU32 mn, Val.vU32 mx =>
      let c := clampPair (if b then (1 : Int) else 0) mn mx
      { opt with value := Val.vU32 c.1, status := c.2 }
  | 4, Val.vI64 mn, Val.vI64 mx =>
      let c := clampPair (if b then (1 : Int) else 0) mn mx
      { opt with value := Val.vI64 c.1, status := c.2 }
  | 5, Val.vF32 mn, Val.vF32 mx =>
      let c := clampPair (if b then (1 : Rat) else 0) mn mx
      { opt with value := Val.vF32 c.1, status := c.2 }
  | 6, Val.vF64 mn, Val.vF64 mx =>
      let c := clampPair (if b then (1 : Rat) else 0) mn mx
      { opt with value := Val.vF64 c.1, status := c.2 }
  | _, _, _ => { opt with value := Val.vBool b, status := Status.Parsed }

/-- Instantiation `update_numeric_value_n_status<int64_t>` (called by
`deal_integer` with the `strtoll` result; rows 2-4 are the live ones). -/
def update_numeric_int (opt : OptState) (val : Int) : OptState :=
  match opt.value.index, opt.min, opt.max with
  | 2, Val.vI32 mn, Val.vI32 mx =>
      let c := clampPair val mn mx
      { opt with value := Val.vI32 c.1, status := c.2 }
  | 3, Val.vU32 mn, Val.vU32 mx =>
      let c := clampPair val mn mx
      { opt with value := Val.vU32 c.1, status := c.2 }
  | 4, Val.vI64 mn, Val.vI64 mx =>
      let c := clampPair val mn mx
      { opt with value := Val.vI64 c.1, status := c.2 }
  | 5, Val.vF32 mn, Val.vF32 mx =>
      let c := clampPair (val : Rat) mn mx
      { opt with value := Val.vF32 c.1, status := c.2 }
  | 6, Val.vF64 mn, Val.vF64 mx =>
      let c := clampPair (val : Rat) mn mx
      { opt with value := Val.vF64 c.1, status := c.2 }
  | _, _, _ => { opt with value := Val.vI64 val, status := Status.Parsed }

/-- Instantiation `update_numeric_value_n_status<double>` (called by
`deal_floating`; rows 5-6 are the live ones, rows 2-4 would truncate the
clamped double toward zero). -/
def update_numeric_float (opt : OptState) (val : Rat) : OptState :=
  match opt.value.index, opt.min, opt.max with
  | 2, Val.vI32 mn, Val.vI32 mx =>
      let c := clampPair val ((mn : Rat)) ((mx : Rat))
      { opt with value := Val.vI32 (truncRat c.1), status := c.2 }
  | 3, Val.vU32 mn, Val.vU32 mx =>
      let c := clampPair val ((mn : Rat)) ((mx : Rat))
      { opt with value := Val.vU32 (truncRat c.1), status := c.2 }
  | 4, Val.vI64 mn, Val.vI64 mx =>
      let c := clampPair val ((mn : Rat)) ((mx : Rat))
      { opt with value := Val.vI64 (truncRat c.1), status := c.2 }
  | 5, Val.vF32 mn, Val.vF32 mx =>
      let c := clampPair val mn mx
      { opt with value := Val.vF32 c.1, status := c.2 }
  | 6, Val.vF64 mn, Val.vF64 mx =>
      let c := clampPair val mn mx
      { opt with value := Val.vF64 c.1, status := c.2 }
  | _, _, _ => { opt with value := Val.vF64 val, status := Status.Parsed }

/-- Numeric value of a character as a digit, per `strtoll` (0-9, a-z, A-Z). -/
def digitVal (c : Char) : Option Nat :=
  if '0' ≤ c ∧ c ≤ '9' then some (c.toNat - '0'.toNat)
  else if 'a' ≤ c ∧ c ≤ 'z' then some (c.toNat - 'a'.toNat + 10)
  else if 'A' ≤ c ∧ c ≤ 'Z' then some (c.toNat - 'A'.toNat + 10)
  else none

/-- Whether a character is a digit of the given base. -/
def isBaseDigit (base : Nat) (c : Char) : Bool :=
  match digitVal c with
  | some d => decide (d < base)
  | none => false

/-- Whitespace per C `isspace` in the default locale. -/
def isSpaceC (c : Char) : Bool :=
  c == ' ' || c == '\t' || c == '\n' || c == '\x0b' || c == '\x0c' || c == '\r'

/-- Accumulates a run of digits of the given base: the resulting magnitude and
the number of characters of the run. -/
def scanDigits (base : Nat) : List Char → Nat → Nat × Nat
  | [], acc => (acc, 0)
  | c :: rest, acc =>
    match digitVal c with
    | some d =>
        if d < base then
          let r := scanDigits base rest (acc * base + d)
          (r.1, r.2 + 1)
        else (acc, 0)
    | none => (acc, 0)

/-- Saturation to the `long long` range, as `strtoll` does on overflow. -/
def i64Sat (n : Int) : Int :=
  max (-(2 ^ 63)) (min (2 ^ 63 - 1) n)

/-- Length of the `0x` / `0X` prefix consumed for base 16 (glibc consumes it
only when a hexadecimal digit follows). -/
def hexPrefixLen (base : Nat) (cs : List Char) : Nat :=
  match cs with
  | '0' :: x :: d :: _ =>
      if base = 16 ∧ (x = 'x' ∨ x = 'X') ∧ isBaseDigit 16 d = true then 2 else 0
  | _ => 0

/-- Model of the C library function `strtoll(s, &end, base)`: the converted
value and the number of characters consumed (`end - s`).  If no digit is
converted, the end pointer is the start pointer and the value is 0. -/
def strtollM (s : String) (base : Nat) : Int × Nat :=
  let cs := s.toList
  let ws := (cs.takeWhile isSpaceC).length
  let cs1 := cs.dropWhile isSpaceC
  let sgn : Int := match cs1 with | '-' :: _ => -1 | _ => 1
  let sLen : Nat := match cs1 with | '-' :: _ => 1 | '+' :: _ => 1 | _ => 0
  let cs2 := cs1.drop sLen
  let pLen := hexPrefixLen base cs2
  let cs3 := cs2.drop pLen
  let r := scanDigits base cs3 0
  if r.2 = 0 then (0, 0) else (i64Sat (sgn * (r.1 : Int)), ws + sLen + pLen + r.2)

/-- Result of the C library function `strtod` on a value token: converted
value, whether it is NaN, and the number of characters consumed.  `strtod` is
external library code; `Parse` takes the conversion as a function parameter. -/
structure FloatConv where
  val : Rat
  isNan : Bool
  consumed : Nat
deriving DecidableEq, Repr

/-- Model of `OptionParser::deal_integer`: convert with `strtoll` in the
descriptor's base; if fewer characters than the whole token were consumed the
status becomes `ValueInvalid` and nothing else changes, otherwise the value
and status are updated through the numeric clamp. -/
def deal_integer (opt : OptState) (valStr : String) : OptState :=
  let r := strtollM valStr opt.base
  if r.2 < valStr.length then { opt with status := Status.ValueInvalid }
  else update_numeric_int opt r.1

/-- Model of `OptionParser::deal_floating`: convert with `strtod`; if fewer
characters than the whole token were consumed, or the value is NaN, the
status becomes `ValueInvalid` and nothing else changes, otherwise the value
and status are updated through the numeric clamp. -/
def deal_floating (conv : String → FloatConv) (opt : OptState) (valStr : String) : OptState :=
  let r := conv valStr
  if r.consumed < valStr.length ∨ r.isNan = true then { opt with status := Status.ValueInvalid }
  else update_numeric_float opt r.val

/-- The scanning loop of `OptionParser::Parse`: walk the tokens in index
order; at the first token whose text matches (`NameMatch`, regardless of the
consumed flag) mark it consumed and dispatch on the descriptor kind `type`
(`opt.value.index()`, computed before the loop); if the scan falls off the
end, the status becomes `NotFound`. -/
def scanArgs (conv : String → FloatConv) (type : Nat) (opt : OptState) :
    List Arg → List Arg × OptState
  | [] => ([], { opt with status := Status.NotFound })
  | a :: rest =>
    let m := NameMatch opt a.2
    if m.1 then
      if type = 0 then
        ((true, a.2) :: rest, update_numeric_bool m.2 true)
      else if 0 < rest.length then
        let vtext := textAt rest 0
        if type = 1 then
          ((true, a.2) :: consumeAt rest 0,
           { m.2 with value := Val.vStr vtext, status := Status.Parsed })
        else if 2 ≤ type ∧ type ≤ 4 then
          ((true, a.2) :: consumeAt rest 0, deal_integer m.2 vtext)
        else
          ((true, a.2) :: consumeAt rest 0, deal_floating conv m.2 vtext)
      else
        ((true, a.2) :: rest, { m.2 with status := Status.ValueNotFound })
    else
      let r := scanArgs conv type opt rest
      (a :: r.1, r.2)

/-- Result of one `OptionParser::Parse` call: updated token list, updated
descriptor, and the returned status (`return opt.status`). -/
structure ParseResult where
  args : List Arg
  opt : OptState
  ret : Status
deriving DecidableEq, Repr

/-- Model of `OptionParser::Parse`. -/
def Parse (conv : String → FloatConv) (args : List Arg) (opt : OptState) : ParseResult :=
  let r := scanArgs conv opt.value.index opt args
  ⟨r.1, r.2, r.2.status⟩

/-- Model of `OptionParser::FirstUnparsedArg`: text of the first token whose
consumed flag is false, or "" when every token is consumed.  The source
method is `const`: the model returns no updated token list. -/
def FirstUnparsedArg : List Arg → String
  | [] => ""
  | a :: rest => if a.1 = false then a.2 else FirstUnparsedArg rest

/-- Model of `OptionParser::GetAllUnparsedArgs`: texts of all tokens whose
consumed flag is false, in index order.  The source method is `const`: the
model returns no updated token list. -/
def GetAllUnparsedArgs : List Arg → List String
  | [] => []
  | a :: rest =>
    if a.1 = false then a.2 :: GetAllUnparsedArgs rest else GetAllUnparsedArgs rest

/-- Model of the `Option<bool>` constructor (`numeric_limits<bool>` bounds). -/
def mkBoolOption (name alt : String) : OptState :=
  { status := Status.NotParsed, name := name, alt_name := alt, matched_name := "",
    base := 10, default_val := Val.vBool false, value := Val.vBool false,
    min := Val.vBool false, max := Val.vBool true }

/-- Model of the `Option<int32_t>` constructor taking default, min and max. -/
def mkI32OptionBounded (dv mn mx : Int) (name alt : String) : OptState :=
  { status := Status.NotParsed, name := name, alt_name := alt, matched_name := "",
    base := 10, default_val := Val.vI32 dv, value := Val.vI32 dv,
    min := Val.vI32 mn, max := Val.vI32 mx }

/-- Model of the `Option<int32_t>` constructor taking default and base (base
clamped to [2,36]; bounds are the full `int32_t` range). -/
def mkI32OptionBase (dv : Int) (b : Nat) (name alt : String) : OptState :=
  { status := Status.NotParsed, name := name, alt_name := alt, matched_name := "",
    base := if b < 2 then 2 else if b > 36 then 36 else b,
    default_val := Val.vI32 dv, value := Val.vI32 dv,
    min := Val.vI32 (-(2 ^ 31)), max := Val.vI32 (2 ^ 31 - 1) }

/-- Model of the `Option<double>` constructor taking only a default
(`numeric_limits<double>` bounds, i.e. plus and minus `DBL_MAX`). -/
def mkF64Option (dv : Rat) (name alt : String) : OptState :=
  { status := Status.NotParsed, name := name, alt_name := alt, matched_name := "",
    base := 10, default_val := Val.vF64 dv, value := Val.vF64 dv,
    min := Val.vF64 (-(2 ^ 1024 - 2 ^ 971)), max := Val.vF64 (2 ^ 1024 - 2 ^ 971) }

/-- The cluster-splitting side condition exactly as the specification words
it: length at least 3, begins with a single `-` (not `--`), and the second
character is not `-`, `.`, nor a decimal digit. -/
def isMergedCluster (tok : String) : Prop :=
  3 ≤ tok.length ∧ tok.toList.headD ' ' = '-' ∧ tok.toList.getD 1 ' ' ≠ '-' ∧
    tok.toList.getD 1 ' ' ≠ '.' ∧ ¬('0' ≤ tok.toList.getD 1 ' ' ∧ tok.toList.getD 1 ' ' ≤ '9')

instance (tok : String) : Decidable (isMergedCluster tok) := by
  unfold isMergedCluster; infer_instance

/-- The per-token transformation exactly as the specification words it: a
merged short-flag cluster is split into one synthetic one-character token per
character after the leading `-`, each re-prefixed with `-`; every other token
is kept verbatim. -/
def specTokenizeArg (tok : String) : List String :=
  if isMergedCluster tok then (tok.toList.drop 1).map (fun c => String.mk ['-', c])
  else [tok]

/-- The whole tokenization as the claim words it: the rule is applied to
every input token except index 0, which is kept verbatim. -/
def specTokenize (argv : List String) : List String :=
  match argv with
  | [] => []
  | a :: rest => a :: (rest.map specTokenizeArg).flatten

/-- Index `j` is the first token (in index order) whose text matches the
descriptor's name or alternative name; the consumed flags play no role. -/
def IsLeastMatch (opt : OptState) (args : List Arg) (j : Nat) : Prop :=
  j < args.length ∧ nameMatchB opt (textAt args j) = true ∧
    ∀ k, k < j → nameMatchB opt (textAt args k) = false

instance (opt : OptState) (args : List Arg) (j : Nat) : Decidable (IsLeastMatch opt args j) := by
  unfold IsLeastMatch; infer_instance

/-- What one `Parse` call does when its match point is the token at index
`j`: mark it consumed, and for non-boolean kinds consume and convert the
following token when it exists. -/
def matchAt (conv : String → FloatConv) (type : Nat) (opt : OptState)
    (args : List Arg) (j : Nat) : List Arg × OptState :=
  let opt1 := (NameMatch opt (textAt args j)).2
  if type = 0 then
    (consumeAt args j, update_numeric_bool opt1 true)
  else if j + 1 < args.length then
    let vtext := textAt args (j + 1)
    let args2 := consumeAt (consumeAt args j) (j + 1)
    if type = 1 then (args2, { opt1 with value := Val.vStr vtext, status := Status.Parsed })
    else if 2 ≤ type ∧ type ≤ 4 then (args2, deal_integer opt1 vtext)
    else (args2, deal_floating conv opt1 vtext)
  else
    (consumeAt args j, { opt1 with status := Status.ValueNotFound })

/-- Bounds of an integer-kind descriptor whose `min`/`max` kinds agree with
its value kind. -/
def intBounds (opt : OptState) : Option (Int × Int) :=
  match opt.value.index, opt.min, opt.max with
  | 2, Val.vI32 mn, Val.vI32 mx => some (mn, mx)
  | 3, Val.vU32 mn, Val.vU32 mx => some (mn, mx)
  | 4, Val.vI64 mn, Val.vI64 mx => some (mn, mx)
  | _, _, _ => none

/-- Integer payload of a `Val`, when it has integer kind. -/
def intPayload : Val → Option Int
  | Val.vI32 n => some n
  | Val.vU32 n => some n
  | Val.vI64 n => some n
  | _ => none

/-- Bounds of a floating-kind descriptor whose `min`/`max` kinds agree with
its value kind. -/
def ratBounds (opt : OptState) : Option (Rat × Rat)  :=
  match opt.value.index, opt.min, opt.max with
  | 5, Val.vF32 mn, Val.vF32 mx => some (mn, mx)
  | 6, Val.vF64 mn, Val.vF64 mx => some (mn, mx)
  | _, _, _ => none

/-- Floating payload of a `Val`, when it has floating kind. -/
def ratPayload : Val → Option Rat
  | Val.vF32 q => some q
  | Val.vF64 q => some q
  | _ => none

/-- The clamping relation between a converted value `v`, the bounds, the
stored value and the resulting status. -/
def clampRel {A : Type} [LinearOrder A] (v mn mx stored : A) (st : Status) : Prop :=
  mn ≤ stored ∧ stored ≤ mx ∧
    (st = Status.ClampedMin ↔ v < mn) ∧
    (st = Status.ClampedMax ↔ mx < v) ∧
    (st = Status.ClampedMin → stored = mn) ∧
    (st = Status.ClampedMax → stored = mx) ∧
    (st = Status.Parsed → stored = v) ∧
    (st = Status.ClampedMin ∨ st = Status.ClampedMax ∨ st = Status.Parsed)

/-- The `min`/`max` variant kinds agree with the value kind (guaranteed by
every `Option<T>` constructor; on states violating it the C++ numeric update
would throw `bad_variant_access`). -/
def kindsAgree (opt : OptState) : Prop :=
  opt.min.index = opt.value.index ∧ opt.max.index = opt.value.index

instance (opt : OptState) : Decidable (kindsAgree opt) := by
  unfold kindsAgree; infer_instance

/-- A placeholder `strtod` model for concrete witnesses that never reach the
floating path or whose floating result is irrelevant. -/
def dummyConv : String → FloatConv := fun _ => ⟨0, false, 0⟩

/-- A `strtod` model that reports NaN for every token (what `strtod` does on
the token "nan"). -/
def nanConv : String → FloatConv := fun _ => ⟨0, true, 3⟩

/-- A status that a completed `Parse` call can report: every status except
`NotParsed`. -/
def Settled (s : Status) : Prop :=
  s = Status.NotFound ∨ s = Status.ValueInvalid ∨ s = Status.ValueNotFound ∨
    s = Status.ClampedMax ∨ s = Status.ClampedMin ∨ s = Status.Parsed

/-! Helper lemmas about the token list operations. -/

theorem length_consumeAt (l : List Arg) (i : Nat) : (consumeAt l i).length = l.length := by
  induction l generalizing i with
  | nil => rfl
  | cons a rest ih =>
    cases i with
    | zero => rfl
    | succ n => simp [consumeAt, ih]

theorem consumeAt_cons_zero (a : Arg) (l : List Arg) :
    consumeAt (a :: l) 0 = (true, a.2) :: l := rfl

theorem consumeAt_cons_succ (a : Arg) (l : List Arg) (n : Nat) :
    consumeAt (a :: l) (n + 1) = a :: consumeAt l n := rfl

theorem map_snd_consumeAt (l : List Arg) (i : Nat) :
    (consumeAt l i).map Prod.snd = l.map Prod.snd := by
  induction l generalizing i with
  | nil => rfl
  | cons a rest ih =>
    cases i with
    | zero => rfl
    | succ n => simp [consumeAt, ih]

theorem textAt_cons_zero (a : Arg) (l : List Arg) : textAt (a :: l) 0 = a.2 := rfl

theorem textAt_cons_succ (a : Arg) (l : List Arg) (j : Nat) :
    textAt (a :: l) (j + 1) = textAt l j := rfl

theorem getD_consumeAt_self (l : List Arg) (i : Nat) (h : i < l.length) :
    (consumeAt l i).getD i (false, "") = (true, textAt l i) := by
  induction l generalizing i with
  | nil => simp at h
  | cons a rest ih =>
    cases i with
    | zero => rfl
    | succ n =>
      have hn : n < rest.length := by simpa using h
      simpa [consumeAt, textAt] using ih n hn

theorem textAt_consumeAt (l : List Arg) (i j : Nat) :
    textAt (consumeAt l i) j = textAt l j := by
  induction l generalizing i j with
  | nil => rfl
  | cons a rest ih =>
    cases i with
    | zero => cases j <;> rfl
    | succ n =>
      cases j with
      | zero => rfl
      | succ m =>
        rw [consumeAt_cons_succ, textAt_cons_succ, textAt_cons_succ]
        exact ih n m

/-! Helper lemmas about `NameMatch`. -/

theorem nameMatch_fst (opt : OptState) (s : String) :
    (NameMatch opt s).1 = nameMatchB opt s := by
  unfold NameMatch nameMatchB
  split
  · next h => simp [h]
  · split
    · next h => simp [h]
    · next h1 h2 => simp [h1, h2]

theorem nameMatch_of_false (opt : OptState) (s : String) (h : nameMatchB opt s = false) :
    NameMatch opt s = (false, opt) := by
  unfold nameMatchB at h
  simp only [Bool.or_eq_false_iff, beq_eq_false_iff_ne] at h
  unfold NameMatch
  rw [if_neg h.1, if_neg h.2]

theorem nameMatch_snd_value (opt : OptState) (s : String) :
    (NameMatch opt s).2.value = opt.value := by
  unfold NameMatch; split; · rfl
  split <;> rfl

theorem nameMatch_snd_status (opt : OptState) (s : String) :
    (NameMatch opt s).2.status = opt.status := by
  unfold NameMatch; split; · rfl
  split <;> rfl

theorem nameMatch_snd_default (opt : OptState) (s : String) :
    (NameMatch opt s).2.default_val = opt.default_val := by
  unfold NameMatch; split; · rfl
  split <;> rfl

/-! The scanning loop reaches exactly the first textual match. -/

theorem matchAt_cons (conv : String → FloatConv) (type : Nat) (opt : OptState)
    (a : Arg) (l : List Arg) (j : Nat) :
    matchAt conv type opt (a :: l) (j + 1) =
      (a :: (matchAt conv type opt l j).1, (matchAt conv type opt l j).2) := by
  unfold matchAt
  rw [textAt_cons_succ, consumeAt_cons_succ, textAt_cons_succ, consumeAt_cons_succ]
  simp only [List.length_cons, Nat.succ_lt_succ_iff]
  by_cases ht : type = 0
  · simp [ht]
  · rw [if_neg ht, if_neg ht]
    by_cases hc : j + 1 < l.length
    · rw [if_pos hc, if_pos hc]
      by_cases h1 : type = 1
      · simp [h1]
      · rw [if_neg h1, if_neg h1]
        by_cases h2 : 2 ≤ type ∧ type ≤ 4
        · simp [h2]
        · simp [h2]
    · rw [if_neg hc, if_neg hc]

theorem scanArgs_eq_matchAt (conv : String → FloatConv) (type : Nat) (opt : OptState)
    (args : List Arg) (j : Nat) (hj : IsLeastMatch opt args j) :
    scanArgs conv type opt args = matchAt conv type opt args j := by
  induction args generalizing j with
  | nil => exact absurd hj.1 (by simp)
  | cons a rest ih =>
    cases j with
    | zero =>
      have hm : nameMatchB opt a.2 = true := hj.2.1
      rw [scanArgs]
      simp only [nameMatch_fst, hm, if_true]
      unfold matchAt
      rw [textAt_cons_zero, consumeAt_cons_zero]
      simp only [List.length_cons, Nat.succ_lt_succ_iff, Nat.zero_add, Nat.lt_irrefl]
      by_cases ht : type = 0
      · simp [ht]
      · rw [if_neg ht, if_neg ht]
        by_cases hc : 0 < rest.length
        · rw [if_pos hc, if_pos hc]
          rfl
        · rw [if_neg hc, if_neg hc]
    | succ k =>
      have h0 : nameMatchB opt a.2 = false := hj.2.2 0 (Nat.succ_pos k)
      have hrest : IsLeastMatch opt rest k := by
        refine ⟨by simpa using hj.1, hj.2.1, fun m hm => ?_⟩
        exact hj.2.2 (m + 1) (Nat.succ_lt_succ hm)
      rw [scanArgs]
      simp only [nameMatch_fst, h0, Bool.false_eq_true, if_false]
      rw [matchAt_cons, ih k hrest]

theorem scanArgs_notFound (conv : String → FloatConv) (type : Nat) (opt : OptState)
    (args : List Arg) (h : ∀ k, k < args.length → nameMatchB opt (textAt args k) = false) :
    scanArgs conv type opt args = (args, { opt with status := Status.NotFound }) := by
  induction args with
  | nil => rfl
  | cons a rest ih =>
    have h0 : nameMatchB opt a.2 = false := h 0 (by simp)
    have hrest : ∀ k, k < rest.length → nameMatchB opt (textAt rest k) = false := by
      intro k hk
      exact h (k + 1) (by simpa using Nat.succ_lt_succ hk)
    rw [scanArgs]
    simp only [nameMatch_fst, h0, Bool.false_eq_true, if_false]
    rw [ih hrest]

/-! Helper lemmas about clamping and the numeric updates. -/

theorem clampPair_rel {A : Type} [LinearOrder A] (v mn mx : A) (h : mn ≤ mx) :
    clampRel v mn mx (clampPair v mn mx).1 (clampPair v mn mx).2 := by
  unfold clampPair clampRel
  split_ifs with h1 h2
  · exact ⟨le_refl mn, h, by simp [h1], by simp [(lt_of_lt_of_le h1 h).asymm],
      fun _ => rfl, by simp, by simp, Or.inl rfl⟩
  · exact ⟨h, le_refl mx, by simp [h1], by simp [h2], by simp, fun _ => rfl, by simp,
      Or.inr (Or.inl rfl)⟩
  · exact ⟨le_of_not_lt h1, le_of_not_lt h2, by simp [h1], by simp [h2], by simp, by simp,
      fun _ => rfl, Or.inr (Or.inr rfl)⟩

theorem clampPair_snd_settled {A : Type} [LinearOrder A] (v mn mx : A) :
    Settled (clampPair v mn mx).2 := by
  unfold clampPair Settled
  split_ifs <;> simp

theorem update_numeric_int_spec (opt : OptState) (v mn mx : Int)
    (hb : intBounds opt = some (mn, mx)) :
    intPayload (update_numeric_int opt v).value = some (clampPair v mn mx).1 ∧
    (update_numeric_int opt v).status = (clampPair v mn mx).2 := by
  rcases hval : opt.value <;> rcases hmin : opt.min <;> rcases hmax : opt.max <;>
    simp_all [intBounds, update_numeric_int, intPayload, Val.index]

theorem update_numeric_float_spec (opt : OptState) (v mn mx : Rat)
    (hb : ratBounds opt = some (mn, mx)) :
    ratPayload (update_numeric_float opt v).value = some (clampPair v mn mx).1 ∧
    (update_numeric_float opt v).status = (clampPair v mn mx).2 := by
  rcases hval : opt.value <;> rcases hmin : opt.min <;> rcases hmax : opt.max <;>
    simp_all [ratBounds, update_numeric_float, ratPayload, Val.index]

theorem update_numeric_bool_settled (opt : OptState) (b : Bool) :
    Settled (update_numeric_bool opt b).status := by
  unfold update_numeric_bool
  split <;> first
    | (simp only []; exact Or.inr (Or.inr (Or.inr (Or.inr (Or.inr rfl)))))
    | exact clampPair_snd_settled _ _ _

theorem update_numeric_int_settled (opt : OptState) (v : Int) :
    Settled (update_numeric_int opt v).status := by
  unfold update_numeric_int
  split <;> first
    | (simp only []; exact Or.inr (Or.inr (Or.inr (Or.inr (Or.inr rfl)))))
    | exact clampPair_snd_settled _ _ _

theorem update_numeric_float_settled (opt : OptState) (v : Rat) :
    Settled (update_numeric_float opt v).status := by
  unfold update_numeric_float
  split <;> first
    | (simp only []; exact Or.inr (Or.inr (Or.inr (Or.inr (Or.inr rfl)))))
    | exact clampPair_snd_settled _ _ _

theorem deal_integer_settled (opt : OptState) (s : String) :
    Settled (deal_integer opt s).status := by
  unfold deal_integer
  dsimp only
  split_ifs
  · exact Or.inr (Or.inl rfl)
  · exact update_numeric_int_settled _ _

theorem deal_floating_settled (conv : String → FloatConv) (opt : OptState) (s : String) :
    Settled (deal_floating conv opt s).status := by
  unfold deal_floating
  dsimp only
  split_ifs
  · exact Or.inr (Or.inl rfl)
  · exact update_numeric_float_settled _ _

theorem scanArgs_settled (conv : String → FloatConv) (type : Nat) (opt : OptState)
    (args : List Arg) : Settled (scanArgs conv type opt args).2.status := by
  induction args with
  | nil => exact Or.inl rfl
  | cons a rest ih =>
    rw [scanArgs]
    split_ifs with hm ht hr h1 h2
    · exact update_numeric_bool_settled _ _
    · exact Or.inr (Or.inr (Or.inr (Or.inr (Or.inr rfl))))
    · exact deal_integer_settled _ _
    · exact deal_floating_settled _ _ _
    · exact Or.inr (Or.inr (Or.inl rfl))
    · exact ih

/-! Helper lemmas about the tokenizer. -/

theorem string_length_toList (s : String) : s.length = s.toList.length := rfl

theorem tokenizeArg_eq_spec (tok : String) : tokenizeArg tok = specTokenizeArg tok := by
  obtain ⟨cs⟩ := tok
  rcases cs with _ | ⟨c0, _ | ⟨c1, rest⟩⟩
  · rfl
  · rfl
  · simp only [tokenizeArg, specTokenizeArg, isMergedCluster, String.toList, String.length,
      List.headD_cons, List.getD_cons_succ, List.getD_cons_zero, List.length_cons,
      List.drop_succ_cons, List.drop_zero]
    split_ifs with ha hb <;> first | rfl | (exfalso; tauto)

theorem tokenizeArg_ne_nil (tok : String) : tokenizeArg tok ≠ [] := by
  obtain ⟨cs⟩ := tok
  rcases cs with _ | ⟨c0, _ | ⟨c1, rest⟩⟩
  · simp [tokenizeArg]
  · simp [tokenizeArg]
  · simp only [tokenizeArg, String.toList]
    split_ifs <;> simp

theorem getD_map_false_flag (xs : List String) (i : Nat) :
    ((xs.map (fun s => ((false : Bool), s))).getD i (false, "")).1 = false := by
  induction xs generalizing i with
  | nil => cases i <;> rfl
  | cons x rest ih =>
    cases i with
    | zero => rfl
    | succ n => exact ih n

theorem mkParserArgs_texts (argv : List String) :
    (mkParserArgs argv).map Prod.snd = (argv.map tokenizeArg).flatten := by
  unfold mkParserArgs
  rw [map_snd_consumeAt, List.map_map]
  have : Prod.snd ∘ (fun s => (((false : Bool), s) : Arg)) = id := rfl
  rw [this, List.map_id]

theorem flags_consume_zero (xs : List String) (i : Nat)
    (h : i < (consumeAt (xs.map (fun s => ((false : Bool), s))) 0).length) :
    ((consumeAt (xs.map (fun s => ((false : Bool), s))) 0).getD i (false, "")).1 = (i == 0) := by
  cases xs with
  | nil => simp [consumeAt] at h
  | cons x rest =>
    cases i with
    | zero => rfl
    | succ n => exact getD_map_false_flag rest n

theorem mkParserArgs_flags (argv : List String) (i : Nat)
    (h : i < (mkParserArgs argv).length) :
    ((mkParserArgs argv).getD i (false, "")).1 = (i == 0) :=
  flags_consume_zero ((argv.map tokenizeArg).flatten) i h

theorem settled_ne_notParsed {s : Status} (h : Settled s) : s ≠ Status.NotParsed := by
  rcases h with h | h | h | h | h | h <;> simp [h]

theorem update_numeric_bool_default (opt : OptState) (b : Bool) (h : opt.value.index = 0) :
    update_numeric_bool opt b = { opt with value := Val.vBool b, status := Status.Parsed } := by
  unfold update_numeric_bool
  split <;> simp_all

/-! Claim theorems. -/

/-- C1 (counterexample): the claim exempts the token at index 0 from cluster
splitting, but the constructor loop starts at index 0: on the argument
vector consisting of the single string `-ab` the code produces the two
tokens `-a` and `-b`, while the claim requires the verbatim token `-ab`
(as `specTokenize`, the claim's reading, produces). -/
theorem tokenizer_splits_token_zero :
    (mkParserArgs ["-ab"]).map Prod.snd = ["-a", "-b"] ∧
    specTokenize ["-ab"] = ["-ab"] ∧
    (["-a", "-b"] : List String) ≠ ["-ab"] := by
  refine ⟨by decide, by decide, by decide⟩

/-- C1 (amended): for every raw argument vector, the tokenizer applies the
cluster-splitting rule once per input token including the token at index 0:
the produced token texts are the concatenation of the per-token rule applied
in order (so the expansion preserves relative token order), and every
produced token starts unconsumed except the token at index 0, which is
marked consumed. -/
theorem tokenizer_cluster_expansion (argv : List String) :
    (mkParserArgs argv).map Prod.snd = (argv.map specTokenizeArg).flatten ∧
    ∀ i, i < (mkParserArgs argv).length →
      ((mkParserArgs argv).getD i (false, "")).1 = (i == 0) := by
  constructor
  · rw [mkParserArgs_texts]
    have hfun : tokenizeArg = specTokenizeArg := funext tokenizeArg_eq_spec
    rw [hfun]
  · intro i h
    exact mkParserArgs_flags argv i h

/-- C1 (witness): the expansion and flags on the vector `["prog", "-ab"]`. -/
theorem tokenizer_cluster_expansion_witness :
    (mkParserArgs ["prog", "-ab"]).map Prod.snd = (["prog", "-ab"].map specTokenizeArg).flatten ∧
    ((mkParserArgs ["prog", "-ab"]).getD 0 (false, "")).1 = (0 == 0) ∧
    ((mkParserArgs ["prog", "-ab"]).getD 2 (false, "")).1 = (2 == 0) :=
  ⟨(tokenizer_cluster_expansion ["prog", "-ab"]).1,
   (tokenizer_cluster_expansion ["prog", "-ab"]).2 0 (by decide),
   (tokenizer_cluster_expansion ["prog", "-ab"]).2 2 (by decide)⟩

/-- C2 (counterexample): with bounds [0, 100] and converted value 0 the code
stores 0, which equals the minimum bound, with status `Parsed`, so the
claim's "stored == min if and only if status is ClampedMin" is false. -/
theorem clamp_boundary_status_parsed :
    (Parse dummyConv (mkParserArgs ["prog", "-g", "0"])
        (mkI32OptionBounded 50 0 100 "-g" "")).opt.value = Val.vI32 0 ∧
    (mkI32OptionBounded 50 0 100 "-g" "").min = Val.vI32 0 ∧
    (Parse dummyConv (mkParserArgs ["prog", "-g", "0"])
        (mkI32OptionBounded 50 0 100 "-g" "")).opt.status = Status.Parsed ∧
    Status.Parsed ≠ Status.ClampedMin := by
  refine ⟨by decide, by decide, by decide, by decide⟩

/-- C2 (amended): for every numeric descriptor with bounds `mn ≤ mx` whose
match attempt successfully converts a value `v`, the stored value satisfies
`mn ≤ stored ≤ mx`; the status is `ClampedMin` exactly when `v < mn` and
then `stored = mn`; the status is `ClampedMax` exactly when `v > mx` and
then `stored = mx`; otherwise the status is `Parsed` and `stored = v`. -/
theorem numeric_clamp_relation :
    (∀ (opt : OptState) (v mn mx : Int), intBounds opt = some (mn, mx) → mn ≤ mx →
        ∃ stored : Int, intPayload (update_numeric_int opt v).value = some stored ∧
          clampRel v mn mx stored (update_numeric_int opt v).status) ∧
    (∀ (opt : OptState) (v mn mx : Rat), ratBounds opt = some (mn, mx) → mn ≤ mx →
        ∃ stored : Rat, ratPayload (update_numeric_float opt v).value = some stored ∧
          clampRel v mn mx stored (update_numeric_float opt v).status) := by
  constructor
  · intro o v mn mx hb hle
    obtain ⟨h1, h2⟩ := update_numeric_int_spec o v mn mx hb
    exact ⟨(clampPair v mn mx).1, h1, by rw [h2]; exact clampPair_rel v mn mx hle⟩
  · intro o v mn mx hb hle
    obtain ⟨h1, h2⟩ := update_numeric_float_spec o v mn mx hb
    exact ⟨(clampPair v mn mx).1, h1, by rw [h2]; exact clampPair_rel v mn mx hle⟩

/-- C2 (witness): the clamp relation instantiated on an `int32_t` descriptor
with bounds [0, 100] and converted value 5. -/
theorem numeric_clamp_relation_witness :
    ∃ stored : Int,
      intPayload (update_numeric_int (mkI32OptionBounded 50 0 100 "-g" "") 5).value
          = some stored ∧
      clampRel 5 0 100 stored
        (update_numeric_int (mkI32OptionBounded 50 0 100 "-g" "") 5).status :=
  numeric_clamp_relation.1 (mkI32OptionBounded 50 0 100 "-g" "") 5 0 100 (by decide) (by decide)

/-- C3: one `Parse` scan compares tokens in index order by text equality
against `name` or `alt_name` regardless of their consumed flags; the first
textually matching token across the whole scan is the match point (even if
it is already marked consumed), and if no token's text matches, the result
is `NotFound`. -/
theorem parse_first_textual_match (conv : String → FloatConv) (opt : OptState)
    (args : List Arg) :
    (∀ j, IsLeastMatch opt args j →
        Parse conv args opt =
          ⟨(matchAt conv opt.value.index opt args j).1,
           (matchAt conv opt.value.index opt args j).2,
           (matchAt conv opt.value.index opt args j).2.status⟩) ∧
    ((∀ k, k < args.length → nameMatchB opt (textAt args k) = false) →
        Parse conv args opt =
          ⟨args, { opt with status := Status.NotFound }, Status.NotFound⟩) := by
  constructor
  · intro j hj
    unfold Parse
    dsimp only
    rw [scanArgs_eq_matchAt conv opt.value.index opt args j hj]
  · intro h
    unfold Parse
    dsimp only
    rw [scanArgs_notFound conv opt.value.index opt args h]

/-- C3 (witness): the first textual occurrence of `-a` is at index 1 and is
already marked consumed; it is still the match point, and the unconsumed
duplicate at index 2 is left untouched. -/
theorem parse_first_textual_match_witness :
    Parse dummyConv [(true, "p"), (true, "-a"), (false, "-a")] (mkBoolOption "-a" "") =
      ⟨(matchAt dummyConv (mkBoolOption "-a" "").value.index (mkBoolOption "-a" "")
          [(true, "p"), (true, "-a"), (false, "-a")] 1).1,
       (matchAt dummyConv (mkBoolOption "-a" "").value.index (mkBoolOption "-a" "")
          [(true, "p"), (true, "-a"), (false, "-a")] 1).2,
       (matchAt dummyConv (mkBoolOption "-a" "").value.index (mkBoolOption "-a" "")
          [(true, "p"), (true, "-a"), (false, "-a")] 1).2.status⟩ ∧
    (Parse dummyConv [(true, "p"), (true, "-a"), (false, "-a")] (mkBoolOption "-a" "")).opt.status
        = Status.Parsed ∧
    ((Parse dummyConv [(true, "p"), (true, "-a"), (false, "-a")]
        (mkBoolOption "-a" "")).args.getD 2 (false, "")).1 = false :=
  ⟨(parse_first_textual_match dummyConv (mkBoolOption "-a" "")
      [(true, "p"), (true, "-a"), (false, "-a")]).1 1 (by decide),
   by decide, by decide⟩

/-- C4: a numeric match attempt whose value token is a malformed literal
(the conversion consumes fewer characters than the full token length, or,
for floating kinds, produces NaN) sets status `ValueInvalid` and leaves the
stored value exactly equal to its pre-attempt value. -/
theorem malformed_literal_rejected :
    (∀ (opt : OptState) (s : String), (strtollM s opt.base).2 < s.length →
        (deal_integer opt s).status = Status.ValueInvalid ∧
        (deal_integer opt s).value = opt.value) ∧
    (∀ (conv : String → FloatConv) (opt : OptState) (s : String),
        (conv s).consumed < s.length ∨ (conv s).isNan = true →
        (deal_floating conv opt s).status = Status.ValueInvalid ∧
        (deal_floating conv opt s).value = opt.value) := by
  constructor
  · intro o s h
    unfold deal_integer
    dsimp only
    rw [if_pos h]
    exact ⟨rfl, rfl⟩
  · intro c o s h
    unfold deal_floating
    dsimp only
    rw [if_pos h]
    exact ⟨rfl, rfl⟩

/-- C4 (witness): base-16 descriptor against the token `0x5x5x` (conversion
consumes 3 of 6 characters), and a floating descriptor whose conversion
reports NaN on the token `nan`. -/
theorem malformed_literal_rejected_witness :
    ((deal_integer (mkI32OptionBase 0 16 "-x" "") "0x5x5x").status = Status.ValueInvalid ∧
     (deal_integer (mkI32OptionBase 0 16 "-x" "") "0x5x5x").value
        = (mkI32OptionBase 0 16 "-x" "").value) ∧
    ((deal_floating nanConv (mkF64Option 0 "-f" "") "nan").status = Status.ValueInvalid ∧
     (deal_floating nanConv (mkF64Option 0 "-f" "") "nan").value
        = (mkF64Option 0 "-f" "").value) :=
  ⟨malformed_literal_rejected.1 (mkI32OptionBase 0 16 "-x" "") "0x5x5x" (by decide),
   malformed_literal_rejected.2 nanConv (mkF64Option 0 "-f" "") "nan" (Or.inr (by decide))⟩

/-- C5: for a non-boolean descriptor whose first textual match is the last
token of the list (no following token exists), the match attempt sets
status `ValueNotFound` and leaves the value at its default; when a
following token does exist, it is marked consumed regardless of the parse
outcome. -/
theorem parse_missing_value (conv : String → FloatConv) (opt : OptState) (args : List Arg)
    (j : Nat) (hk : opt.value.index ≠ 0) (hd : opt.value = opt.default_val)
    (hj : IsLeastMatch opt args j) :
    (j + 1 = args.length →
        (Parse conv args opt).opt.status = Status.ValueNotFound ∧
        (Parse conv args opt).opt.value = opt.default_val ∧
        (Parse conv args opt).args = consumeAt args j) ∧
    (j + 1 < args.length →
        ((Parse conv args opt).args.getD (j + 1) (false, "")).1 = true) := by
  have hscan := scanArgs_eq_matchAt conv opt.value.index opt args j hj
  constructor
  · intro hlast
    have hnot : ¬ (j + 1 < args.length) := by omega
    unfold Parse
    dsimp only
    rw [hscan]
    unfold matchAt
    rw [if_neg hk, if_neg hnot]
    refine ⟨rfl, ?_, rfl⟩
    show (NameMatch opt (textAt args j)).2.value = opt.default_val
    rw [nameMatch_snd_value, hd]
  · intro hlt
    have hlen2 : j + 1 < (consumeAt args j).length := by
      rw [length_consumeAt]; exact hlt
    unfold Parse
    dsimp only
    rw [hscan]
    unfold matchAt
    rw [if_neg hk, if_pos hlt]
    dsimp only
    split_ifs <;> rw [getD_consumeAt_self _ _ hlen2]

/-- C5 (witness): the descriptor named `-n` matched against `-n` as the last
token yields `ValueNotFound` with the value unchanged from its default. -/
theorem parse_missing_value_witness :
    (Parse dummyConv (mkParserArgs ["prog", "-n"])
        (mkI32OptionBounded 50 0 100 "-n" "")).opt.status = Status.ValueNotFound ∧
    (Parse dummyConv (mkParserArgs ["prog", "-n"])
        (mkI32OptionBounded 50 0 100 "-n" "")).opt.value
      = (mkI32OptionBounded 50 0 100 "-n" "").default_val ∧
    (Parse dummyConv (mkParserArgs ["prog", "-n"])
        (mkI32OptionBounded 50 0 100 "-n" "")).args
      = consumeAt (mkParserArgs ["prog", "-n"]) 1 :=
  (parse_missing_value dummyConv (mkI32OptionBounded 50 0 100 "-n" "")
      (mkParserArgs ["prog", "-n"]) 1 (by decide) (by decide) (by decide)).1 (by decide)

/-- C6: a boolean descriptor whose name or alternative name textually
matches a token is set to `Parsed` with value true, with no following value
token consumed (only the match point's flag changes); if neither name
occurs in the token list, the status becomes `NotFound` and the value
remains false. -/
theorem parse_bool_semantics (conv : String → FloatConv) (opt : OptState) (args : List Arg)
    (h0 : opt.value = Val.vBool false) :
    (∀ j, IsLeastMatch opt args j →
        Parse conv args opt =
          ⟨consumeAt args j,
           { (NameMatch opt (textAt args j)).2 with
             value := Val.vBool true
             status := Status.Parsed },
           Status.Parsed⟩) ∧
    ((∀ k, k < args.length → nameMatchB opt (textAt args k) = false) →
        Parse conv args opt =
          ⟨args, { opt with status := Status.NotFound }, Status.NotFound⟩ ∧
        (Parse conv args opt).opt.value = Val.vBool false) := by
  have hidx : opt.value.index = 0 := by rw [h0]; rfl
  constructor
  · intro j hj
    unfold Parse
    dsimp only
    rw [scanArgs_eq_matchAt conv opt.value.index opt args j hj]
    unfold matchAt
    rw [if_pos hidx]
    have hone : (NameMatch opt (textAt args j)).2.value.index = 0 := by
      rw [nameMatch_snd_value, hidx]
    rw [update_numeric_bool_default _ true hone]
  · intro h
    unfold Parse
    dsimp only
    rw [scanArgs_notFound conv opt.value.index opt args h]
    exact ⟨rfl, h0⟩

/-- C6 (witness): boolean descriptor `-a` present bare in the arguments. -/
theorem parse_bool_semantics_witness :
    Parse dummyConv (mkParserArgs ["prog", "-a"]) (mkBoolOption "-a" "--all") =
      ⟨consumeAt (mkParserArgs ["prog", "-a"]) 1,
       { (NameMatch (mkBoolOption "-a" "--all")
            (textAt (mkParserArgs ["prog", "-a"]) 1)).2 with
         value := Val.vBool true
         status := Status.Parsed },
       Status.Parsed⟩ :=
  (parse_bool_semantics dummyConv (mkBoolOption "-a" "--all") (mkParserArgs ["prog", "-a"])
      (by decide)).1 1 (by decide)

/-- C7: `FirstUnparsedArg` returns the text of the first token in index
order whose consumed flag is false (empty string when every token is
consumed), and `GetAllUnparsedArgs` returns the texts of all unconsumed
tokens in index order; both are pure reads (the model returns no updated
token list, mirroring the `const` methods). -/
theorem unparsed_args_characterization (args : List Arg) :
    FirstUnparsedArg args = ((args.filter (fun a => !a.1)).map Prod.snd).headD "" ∧
    GetAllUnparsedArgs args = (args.filter (fun a => !a.1)).map Prod.snd := by
  induction args with
  | nil => exact ⟨rfl, rfl⟩
  | cons a rest ih =>
    rcases a with ⟨fl, tx⟩
    cases fl
    · constructor
      · simp [FirstUnparsedArg, List.filter_cons]
      · simp [GetAllUnparsedArgs, List.filter_cons, ih.2]
    · constructor
      · simp [FirstUnparsedArg, List.filter_cons, ih.1]
      · simp [GetAllUnparsedArgs, List.filter_cons, ih.2]

/-- C8: after a `Parse` call on a descriptor whose bound kinds agree with
its value kind returns, the returned value equals the status stored in the
descriptor, and that status is never `NotParsed`: it is one of `NotFound`,
`ValueInvalid`, `ValueNotFound`, `ClampedMax`, `ClampedMin`, `Parsed`. -/
theorem parse_returns_settled_status (conv : String → FloatConv) (args : List Arg)
    (opt : OptState) (hw : kindsAgree opt) :
    (Parse conv args opt).ret = (Parse conv args opt).opt.status ∧
    Settled ((Parse conv args opt).opt.status) ∧
    (Parse conv args opt).opt.status ≠ Status.NotParsed := by
  refine ⟨rfl, ?_, ?_⟩
  · exact scanArgs_settled conv opt.value.index opt args
  · exact settled_ne_notParsed (scanArgs_settled conv opt.value.index opt args)

/-- C8 (witness): a boolean descriptor parsed against the empty token list. -/
theorem parse_returns_settled_status_witness :
    (Parse dummyConv [] (mkBoolOption "-a" "")).ret
        = (Parse dummyConv [] (mkBoolOption "-a" "")).opt.status ∧
    Settled ((Parse dummyConv [] (mkBoolOption "-a" "")).opt.status) ∧
    (Parse dummyConv [] (mkBoolOption "-a" "")).opt.status ≠ Status.NotParsed :=
  parse_returns_settled_status dummyConv [] (mkBoolOption "-a" "") (by decide)

/-- C9: an integer-kind descriptor matched against an empty-string value
token is not `ValueInvalid`: the empty string converts to 0, which is then
clamped against the bounds, yielding status `Parsed` (or `ClampedMin` /
`ClampedMax`) and a stored value derived from 0 by that clamp. -/
theorem empty_value_token_parses (opt : OptState) (mn mx : Int)
    (hb : intBounds opt = some (mn, mx)) :
    (deal_integer opt "").status ≠ Status.ValueInvalid ∧
    ((deal_integer opt "").status = Status.Parsed ∨
     (deal_integer opt "").status = Status.ClampedMin ∨
     (deal_integer opt "").status = Status.ClampedMax) ∧
    intPayload (deal_integer opt "").value =
      some (if (0 : Int) < mn then mn else if mx < 0 then mx else 0) := by
  obtain ⟨h1, h2⟩ := update_numeric_int_spec opt 0 mn mx hb
  have hde : deal_integer opt "" = update_numeric_int opt 0 := rfl
  have hcp : (clampPair (0 : Int) mn mx).2 = Status.Parsed ∨
      (clampPair (0 : Int) mn mx).2 = Status.ClampedMin ∨
      (clampPair (0 : Int) mn mx).2 = Status.ClampedMax := by
    unfold clampPair
    split_ifs <;> simp
  refine ⟨?_, ?_, ?_⟩
  · rw [hde, h2]
    rcases hcp with h | h | h <;> rw [h] <;> simp
  · rw [hde, h2]
    exact hcp
  · rw [hde, h1]
    rfl

/-- C9 (witness): bounds [20, 100]: the empty token yields `ClampedMin`
with stored value 20. -/
theorem empty_value_token_parses_witness :
    ((deal_integer (mkI32OptionBounded 50 20 100 "-n" "") "").status ≠ Status.ValueInvalid ∧
     ((deal_integer (mkI32OptionBounded 50 20 100 "-n" "") "").status = Status.Parsed ∨
      (deal_integer (mkI32OptionBounded 50 20 100 "-n" "") "").status = Status.ClampedMin ∨
      (deal_integer (mkI32OptionBounded 50 20 100 "-n" "") "").status = Status.ClampedMax) ∧
     intPayload (deal_integer (mkI32OptionBounded 50 20 100 "-n" "") "").value =
       some (if (0 : Int) < 20 then 20 else if (100 : Int) < 0 then 100 else 0)) ∧
    (deal_integer (mkI32OptionBounded 50 20 100 "-n" "") "").status = Status.ClampedMin :=
  ⟨empty_value_token_parses (mkI32OptionBounded 50 20 100 "-n" "") 20 100 (by decide),
   by decide⟩

/-- C10: the matching scan starts at token index 0, so the executable-name
token (marked consumed at construction) participates in name comparison:
when the descriptor's name or alternative name textually equals token 0,
the match point is token 0 rather than any later occurrence. -/
theorem parse_exec_token_participates (conv : String → FloatConv) (opt : OptState)
    (argv : List String) (h : argv ≠ [])
    (hm : nameMatchB opt (textAt (mkParserArgs argv) 0) = true) :
    ((mkParserArgs argv).getD 0 (false, "")).1 = true ∧
    Parse conv (mkParserArgs argv) opt =
      ⟨(matchAt conv opt.value.index opt (mkParserArgs argv) 0).1,
       (matchAt conv opt.value.index opt (mkParserArgs argv) 0).2,
       (matchAt conv opt.value.index opt (mkParserArgs argv) 0).2.status⟩ := by
  have hlen : 0 < (mkParserArgs argv).length := by
    rcases argv with _ | ⟨a, rest⟩
    · exact absurd rfl h
    · unfold mkParserArgs
      rw [length_consumeAt, List.length_map]
      simp only [List.map_cons, List.flatten_cons, List.length_append]
      cases htok : tokenizeArg a with
      | nil => exact absurd htok (tokenizeArg_ne_nil a)
      | cons x xs => simp
  constructor
  · have hl : 0 < ((argv.map tokenizeArg).flatten.map
        (fun s => (((false : Bool), s) : Arg))).length := by
      have h2 := hlen
      unfold mkParserArgs at h2
      rwa [length_consumeAt] at h2
    unfold mkParserArgs
    rw [getD_consumeAt_self _ 0 hl]
  · unfold Parse
    dsimp only
    rw [scanArgs_eq_matchAt conv opt.value.index opt (mkParserArgs argv) 0
      ⟨hlen, hm, fun k hk => absurd hk (Nat.not_lt_zero k)⟩]

/-- C10 (witness): the descriptor named `prog` matches the consumed
executable-name token at index 0 and is parsed from it. -/
theorem parse_exec_token_participates_witness :
    (((mkParserArgs ["prog"]).getD 0 (false, "")).1 = true ∧
     Parse dummyConv (mkParserArgs ["prog"]) (mkBoolOption "prog" "") =
       ⟨(matchAt dummyConv (mkBoolOption "prog" "").value.index (mkBoolOption "prog" "")
           (mkParserArgs ["prog"]) 0).1,
        (matchAt dummyConv (mkBoolOption "prog" "").value.index (mkBoolOption "prog" "")
           (mkParserArgs ["prog"]) 0).2,
        (matchAt dummyConv (mkBoolOption "prog" "").value.index (mkBoolOption "prog" "")
           (mkParserArgs ["prog"]) 0).2.status⟩) ∧
    (Parse dummyConv (mkParserArgs ["prog"]) (mkBoolOption "prog" "")).opt.status
        = Status.Parsed :=
  ⟨parse_exec_token_participates dummyConv (mkBoolOption "prog" "") ["prog"]
      (by decide) (by decide),
   by decide⟩
